import Mathlib

/-!
Verification of the canvas-screenshot core of obsidian-mcp-tools-dev.

The embedding models the JavaScript/TypeScript source of
`src/unnamed/part_002` (the canvas export orchestrator and its geometry
helpers) and `src/unnamed/part_001` (the `screenshot_canvas` MCP tool's
temp-file naming).  JavaScript numbers are modelled as exact rationals
extended with the two infinities and NaN (`JNum`); float rounding is
idealized away, but the special-value semantics of `Infinity`, `-Infinity`
and `NaN` in arithmetic, comparison, `Math.min`/`Math.max` and
`Math.round` follow the JS rules, because `combineBBoxes` deliberately
starts its fold from `Infinity`/`-Infinity`.
-/

/-- Extended rationals modelling JavaScript numbers: a finite rational,
`Infinity`, `-Infinity`, or `NaN`. -/
inductive JNum where
  | fin (q : ℚ)
  | pinf
  | ninf
  | nan
deriving DecidableEq, Repr

namespace JNum

/-- JS unary negation. -/
def jneg : JNum → JNum
  | .fin q => .fin (-q)
  | .pinf => .ninf
  | .ninf => .pinf
  | .nan => .nan

/-- JS addition: `Infinity + (-Infinity) = NaN`, infinities absorb finite
values, NaN propagates. -/
def jadd : JNum → JNum → JNum
  | .fin a, .fin b => .fin (a + b)
  | .fin _, .pinf => .pinf
  | .fin _, .ninf => .ninf
  | .pinf, .fin _ => .pinf
  | .ninf, .fin _ => .ninf
  | .pinf, .pinf => .pinf
  | .ninf, .ninf => .ninf
  | .pinf, .ninf => .nan
  | .ninf, .pinf => .nan
  | .nan, _ => .nan
  | _, .nan => .nan

/-- JS subtraction, as addition of the negation. -/
def jsub (a b : JNum) : JNum := jadd a (jneg b)

/-- JS multiplication: `Infinity * 0 = NaN`, signs multiply, NaN
propagates. -/
def jmul : JNum → JNum → JNum
  | .fin a, .fin b => .fin (a * b)
  | .pinf, .pinf => .pinf
  | .pinf, .ninf => .ninf
  | .ninf, .pinf => .ninf
  | .ninf, .ninf => .pinf
  | .pinf, .fin b => if b = 0 then .nan else if 0 < b then .pinf else .ninf
  | .fin a, .pinf => if a = 0 then .nan else if 0 < a then .pinf else .ninf
  | .ninf, .fin b => if b = 0 then .nan else if 0 < b then .ninf else .pinf
  | .fin a, .ninf => if a = 0 then .nan else if 0 < a then .ninf else .pinf
  | .nan, _ => .nan
  | _, .nan => .nan

/-- JS division: division of a nonzero finite value by (positive) zero
gives a signed infinity, `0 / 0 = NaN`, a finite value divided by an
infinity gives `0`, `Infinity / Infinity = NaN`, NaN propagates. -/
def jdiv : JNum → JNum → JNum
  | .fin a, .fin b =>
    if b = 0 then (if a = 0 then .nan else if 0 < a then .pinf else .ninf)
    else .fin (a / b)
  | .fin _, .pinf => .fin 0
  | .fin _, .ninf => .fin 0
  | .pinf, .fin b => if 0 ≤ b then .pinf else .ninf
  | .ninf, .fin b => if 0 ≤ b then .ninf else .pinf
  | .pinf, .pinf => .nan
  | .pinf, .ninf => .nan
  | .ninf, .pinf => .nan
  | .ninf, .ninf => .nan
  | .nan, _ => .nan
  | _, .nan => .nan

/-- JS strict `<` comparison: any comparison involving NaN is false. -/
def jlt : JNum → JNum → Bool
  | .fin a, .fin b => decide (a < b)
  | .fin _, .pinf => true
  | .ninf, .fin _ => true
  | .ninf, .pinf => true
  | _, _ => false

/-- JS `<=` comparison: any comparison involving NaN is false. -/
def jle : JNum → JNum → Bool
  | .fin a, .fin b => decide (a ≤ b)
  | .fin _, .pinf => true
  | .ninf, .fin _ => true
  | .ninf, .ninf => true
  | .ninf, .pinf => true
  | .pinf, .pinf => true
  | _, _ => false

/-- `Math.min`: NaN-propagating minimum. -/
def jmin : JNum → JNum → JNum
  | .nan, _ => .nan
  | _, .nan => .nan
  | a, b => if jle a b then a else b

/-- `Math.max`: NaN-propagating maximum. -/
def jmax : JNum → JNum → JNum
  | .nan, _ => .nan
  | _, .nan => .nan
  | a, b => if jle b a then a else b

/-- `Math.round`: half-up rounding on finite values, identity on
infinities and NaN. -/
def jround : JNum → JNum
  | .fin q => .fin ((⌊q + (1 : ℚ)/2⌋ : ℤ) : ℚ)
  | x => x

end JNum

open JNum

/-- Bounding box over JS numbers, mirroring the source `BBox` type
(`minX`, `minY`, `maxX`, `maxY`). -/
structure BBoxJ where
  minX : JNum
  minY : JNum
  maxX : JNum
  maxY : JNum
deriving DecidableEq, Repr

/-- A DOM rectangle restricted to the two fields the source reads
(`canvas.canvasRect.width` / `.height`), as finite numbers. -/
structure QRect where
  width : ℚ
  height : ℚ
deriving DecidableEq, Repr

/-- One iteration of the `combineBBoxes` loop body (part_002 lines
227-232): `Math.min` the minima, `Math.max` the maxima. -/
def combineStep (acc bbox : BBoxJ) : BBoxJ :=
  ⟨jmin acc.minX bbox.minX, jmin acc.minY bbox.minY,
   jmax acc.maxX bbox.maxX, jmax acc.maxY bbox.maxY⟩

/-- `combineBBoxes` (part_002 lines 221-235): fold `Math.min`/`Math.max`
over the boxes starting from `Infinity`/`-Infinity`, so the empty list
yields the degenerate box `{minX=minY=Infinity, maxX=maxY=-Infinity}`. -/
def combineBBoxes (bboxes : List BBoxJ) : BBoxJ :=
  bboxes.foldl combineStep ⟨.pinf, .pinf, .ninf, .ninf⟩

/-- `scaleBBox` (part_002 lines 137-146): enlarge/shrink a box about its
center by a factor (`1.1` = 10% larger). -/
def scaleBBox (bbox : BBoxJ) (scale : JNum) : BBoxJ :=
  let diffX := jmul (jsub scale (.fin 1)) (jsub bbox.maxX bbox.minX)
  let diffY := jmul (jsub scale (.fin 1)) (jsub bbox.maxY bbox.minY)
  { minX := jsub bbox.minX (jdiv diffX (.fin 2)),
    maxX := jadd bbox.maxX (jdiv diffX (.fin 2)),
    minY := jsub bbox.minY (jdiv diffY (.fin 2)),
    maxY := jadd bbox.maxY (jdiv diffY (.fin 2)) }

/-- `enlargeBBox` (part_002 lines 152-159): add an absolute padding on
all four sides. -/
def enlargeBBox (bbox : BBoxJ) (padding : JNum) : BBoxJ :=
  { minX := jsub bbox.minX padding,
    minY := jsub bbox.minY padding,
    maxX := jadd bbox.maxX padding,
    maxY := jadd bbox.maxY padding }

/-- An edge's label element: the identity of its DOM wrapper
(`labelElement.wrapperEl`) and the on-screen width that
`wrapperEl.getBoundingClientRect().width` reports at the second-pass
measurement. -/
structure EdgeLabel where
  wrapperElId : ℕ
  wrapperRectWidth : ℚ
deriving DecidableEq, Repr

/-- A canvas node.  `getBBoxResult` models the `node.getBBox()` access in
`calculateBoundingBox`: `some b` when the method exists, does not throw
and returns a truthy box; `none` for every fall-through case (method
absent, throwing, or falsy result), in which case the source falls back
to the coordinate rectangle.  `nodeElId` is the identity of
`node.nodeEl`. -/
structure CanvasNode where
  id : ℕ
  x : ℚ
  y : ℚ
  width : ℚ
  height : ℚ
  getBBoxResult : Option BBoxJ
  nodeElId : ℕ
deriving DecidableEq, Repr

/-- A canvas edge.  `getBBoxResult` models `edge.getBBox()` (`none` when
the method is absent or throws, in which case the edge is omitted from
the bounding-box pass); `centerX`/`centerY` model `edge.getCenter()`;
the `...ElId` fields are the identities of `edge.lineGroupEl`,
`edge.lineEndGroupEl` and the optional label wrapper. -/
structure CanvasEdge where
  id : ℕ
  getBBoxResult : Option BBoxJ
  centerX : ℚ
  centerY : ℚ
  lineGroupElId : ℕ
  lineEndGroupElId : ℕ
  labelElement : Option EdgeLabel
deriving DecidableEq, Repr

/-- The canvas state the export operation reads and mutates.  `zoom` and
`tZoomExp` hold the *linear* scale: the source stores
`tZoom = Math.log2(zoom)` and only ever feeds it back through
`canvas.setViewport`, so, `log2` being a bijection on positive reals, we
track the linear value `2 ^ tZoom` directly, which keeps the state
rational and computable.  `canvasRect` is the cached DOM rect of the
canvas element (a canvas whose rect is unavailable is modelled by a
zero-sized rect, the falsy case of the `!canvasRect` guard);
`clientWidth`/`clientHeight` are `canvasEl.clientWidth/Height`. -/
structure Canvas where
  nodes : List CanvasNode
  edges : List CanvasEdge
  screenshotting : Bool
  canvasElClasses : List String
  selection : List ℕ
  x : JNum
  y : JNum
  zoom : JNum
  tx : JNum
  ty : JNum
  tZoomExp : JNum
  zoomCenter : Option (JNum × JNum)
  canvasRect : QRect
  clientWidth : ℚ
  clientHeight : ℚ
deriving DecidableEq, Repr

/-- An element as seen by the capture filter: its identity, its class
list, and its parent's class list (if it has a parent). -/
structure ElemInfo where
  elId : ℕ
  classes : List String
  parentClasses : Option (List String)
deriving DecidableEq, Repr

/-- The argument record handed to the external rasterizer `toPng`
(part_002 lines 472-478).  `pixelFactor` is the source's `pixelRatio`. -/
structure ToPngArgs where
  pixelFactor : JNum
  backgroundColor : String
  height : JNum
  width : JNum
  filter : ElemInfo → Bool

/-- The external world of one export: the computed background color; the
result of parsing `canvasEl.style.transform` at the k-th
`extractCanvasScale` call (`none` = regex did not match); the box
`canvas.getViewportBBox()` returns at step 7; the nodes'
`initialized` / `isContentMounted` flags as the host mutates them over
poll ticks (`none` models an absent property, which `=== false` treats
as ready); `acZoom` is `some f` when Advanced Canvas has installed a
`zoomToRealBbox` method on the canvas (`f` yields the viewport targets
it sets); `toPng` is the rasterizer, which may throw (`Except.error`). -/
structure Env where
  backgroundColor : String
  styleScaleAt : ℕ → Option ℚ
  viewportBBox : BBoxJ
  initializedAt : ℕ → ℕ → Option Bool
  mountedAt : ℕ → ℕ → Option Bool
  acZoom : Option (BBoxJ → JNum × JNum × JNum)
  toPng : ToPngArgs → Except String String

/-- Observable side effects of one `captureCanvasAsImage` call: how many
notices were shown, how many interaction blockers were appended to
`document.body`, whether the blocker is still in the DOM on exit, and how
many times the rasterizer was invoked. -/
structure CaptureLog where
  notices : ℕ
  blockerInstalls : ℕ
  blockerInDom : Bool
  toPngCalls : ℕ
deriving DecidableEq, Repr

deriving instance DecidableEq for Except

/-- Result of `captureCanvasAsImage`: the thrown error or returned
base64 payload, the canvas state on exit, and the effect log. -/
structure CaptureResult where
  result : Except String String
  canvas : Canvas
  log : CaptureLog
deriving DecidableEq, Repr

/-- `canvas.nodes` fallback rectangle `(x, y, x+width, y+height)`
(part_002 lines 108-113). -/
def nodeFallbackBBox (node : CanvasNode) : BBoxJ :=
  ⟨.fin node.x, .fin node.y, .fin (node.x + node.width), .fin (node.y + node.height)⟩

/-- `calculateBoundingBox` (part_002 lines 88-131): every node
contributes its `getBBox()` box or, failing that, its coordinate
rectangle; an edge contributes its `getBBox()` box only when available;
all collected boxes are combined. -/
def calculateBoundingBox (nodes : List CanvasNode) (edges : List CanvasEdge) : BBoxJ :=
  combineBBoxes
    (nodes.map (fun node => node.getBBoxResult.getD (nodeFallbackBBox node)) ++
      edges.filterMap CanvasEdge.getBBoxResult)

/-- `extractCanvasScale` (part_002 lines 165-169): the scale parsed from
the element's transform style, or `1` when the regex does not match. -/
def extractCanvasScale (parsedScale : Option ℚ) : ℚ :=
  parsedScale.getD 1

/-- The host's `canvas.setViewport(tx, ty, tZoom)`: adopts the given pan
and zoom as both the current and the target viewport. -/
def Canvas.setViewport (c : Canvas) (x y zoom : JNum) : Canvas :=
  { c with x := x, y := y, zoom := zoom, tx := x, ty := y, tZoomExp := zoom }

/-- `zoomToRealBbox` (part_002 lines 176-213).  If Advanced Canvas has
installed its own method, delegate to it.  Otherwise: bail out (warn
only, no mutation) when the canvas rect is unavailable/zero-sized or the
box has non-positive width or height; else set the unclamped zoom
(clamped to at most 1 only when not screenshotting) and center the pan
on the box. -/
def zoomToRealBbox (env : Env) (canvas : Canvas) (bbox : BBoxJ) : Canvas :=
  match env.acZoom with
  | some f =>
    let t := f bbox
    { canvas with tx := t.1, ty := t.2.1, tZoomExp := t.2.2 }
  | none =>
    if canvas.canvasRect.width = 0 ∨ canvas.canvasRect.height = 0 then canvas
    else
      let bboxWidth := jsub bbox.maxX bbox.minX
      let bboxHeight := jsub bbox.maxY bbox.minY
      if jle bboxWidth (.fin 0) || jle bboxHeight (.fin 0) then canvas
      else
        let widthZoom := jdiv (.fin canvas.canvasRect.width) bboxWidth
        let heightZoom := jdiv (.fin canvas.canvasRect.height) bboxHeight
        let zoom := if canvas.screenshotting then jmin widthZoom heightZoom
                    else jmin (jmin widthZoom heightZoom) (.fin 1)
        { canvas with tZoomExp := zoom, zoomCenter := none,
                      tx := jdiv (jadd bbox.minX bbox.maxX) (.fin 2),
                      ty := jdiv (jadd bbox.minY bbox.maxY) (.fin 2) }

/-- `MAX_LOADING_TIME` (part_002 line 20): maximum wait for nodes to
load, in milliseconds. -/
def MAX_LOADING_TIME : ℕ := 15000

/-- The filter condition of `waitForNodesReady` at poll tick `t`: the
nodes whose `initialized` or `isContentMounted` property is literally
`false` (`=== false`). -/
def unreadyAt (env : Env) (t : ℕ) (nodes : List CanvasNode) : List CanvasNode :=
  nodes.filter
    (fun node => env.initializedAt t node.id == some false ||
      env.mountedAt t node.id == some false)

/-- The polling loop of `waitForNodesReady` (part_002 lines 252-258):
while the unloaded list is non-empty and the elapsed time
(10 ms per sleep, so `10 * t` after `t` iterations) is below `maxWait`,
sleep 10 ms and re-filter.  `fuel` is a structural bound on the number
of iterations; the caller supplies enough fuel that it never runs out
before the time guard fires. -/
def waitLoop (env : Env) (nodes : List CanvasNode) (maxWait : ℕ) :
    ℕ → ℕ → List CanvasNode → List CanvasNode
  | 0, _, unloaded => unloaded
  | fuel + 1, t, unloaded =>
    if unloaded.isEmpty || decide (maxWait ≤ 10 * t) then unloaded
    else waitLoop env nodes maxWait fuel (t + 1) (unreadyAt env (t + 1) nodes)

/-- `waitForNodesReady` (part_002 lines 243-267): poll the unloaded-node
set every 10 ms until it is empty or `maxWait` elapses, and return the
final (possibly non-empty) list.  It never throws: the caller decides
whether a non-empty result is fatal. -/
def waitForNodesReady (env : Env) (nodes : List CanvasNode)
    (maxWait : ℕ := MAX_LOADING_TIME) : List CanvasNode :=
  waitLoop env nodes maxWait (maxWait / 10 + 1) 0 (unreadyAt env 0 nodes)

/-- The `nodeElements` list of part_002 line 437 (element identities). -/
def nodeElements (c : Canvas) : List ℕ :=
  c.nodes.map CanvasNode.nodeElId

/-- The `edgePathAndArrowElements` list of part_002 lines 438-440. -/
def edgePathAndArrowElements (c : Canvas) : List ℕ :=
  (c.edges.map (fun edge => [edge.lineGroupElId, edge.lineEndGroupElId])).flatten

/-- The `edgeLabelElements` list of part_002 lines 441-443. -/
def edgeLabelElements (c : Canvas) : List ℕ :=
  c.edges.filterMap (fun edge => edge.labelElement.map EdgeLabel.wrapperElId)

/-- The capture filter (part_002 lines 445-468): reject canvas-node
elements outside the known node list, children of the edge container
outside the known edge line/arrow list, and label wrappers outside the
known label list; accept everything else. -/
def exportFilter (nodeElIds edgeElIds labelElIds : List ℕ) (element : ElemInfo) : Bool :=
  if element.classes.contains ("canvas-node") && !(nodeElIds.contains element.elId) then
    false
  else if (match element.parentClasses with
           | some pcs => pcs.contains ("canvas-edges")
           | none => false) && !(edgeElIds.contains element.elId) then
    false
  else if element.classes.contains ("canvas-path-label-wrapper") &&
      !(labelElIds.contains element.elId) then
    false
  else
    true

/-- One edge's contribution to the second framing pass (part_002 lines
379-390): a zero-height segment at the edge center, as wide as the
label's on-screen rectangle divided by the current render scale (zero
when the edge has no label). -/
def edgeLabelBox (canvasScale : ℚ) (edge : CanvasEdge) : BBoxJ :=
  let labelWidth : JNum :=
    match edge.labelElement with
    | some l => jdiv (.fin l.wrapperRectWidth) (.fin canvasScale)
    | none => .fin 0
  { minX := jsub (.fin edge.centerX) (jdiv labelWidth (.fin 2)),
    minY := .fin edge.centerY,
    maxX := jadd (.fin edge.centerX) (jdiv labelWidth (.fin 2)),
    maxY := .fin edge.centerY }

/-- The label box the second framing pass folds into the working box
(part_002 lines 378-392): the per-edge label rectangles combined, then
enlarged by the *absolute* padding `1.1` via `enlargeBBox`. -/
def edgeLabelPassBBox (canvasScale : ℚ) (edges : List CanvasEdge) : BBoxJ :=
  enlargeBBox (combineBBoxes (edges.map (edgeLabelBox canvasScale))) (.fin (11/10))

/-- The aspect-ratio adjustment of part_002 lines 348-359: extend the box
from its top-left corner along the constraining axis so its aspect
matches the render surface's. -/
def adjustBBoxForAspect (enlargedBBox : BBoxJ) (actualAspect targetAspect : JNum) : BBoxJ :=
  if jlt targetAspect actualAspect then
    let targetHeight := jsub enlargedBBox.maxY enlargedBBox.minY
    let actualWidth := jmul targetHeight actualAspect
    { enlargedBBox with maxX := jadd enlargedBBox.minX actualWidth }
  else
    let targetWidth := jsub enlargedBBox.maxX enlargedBBox.minX
    let actualHeight := jdiv targetWidth actualAspect
    { enlargedBBox with maxY := jadd enlargedBBox.minY actualHeight }

/-- Data flowing out of the first framing pass (steps 1-5 of
`captureCanvasAsImage`), consumed by the later steps. -/
structure FirstPass where
  canvas : Canvas
  targetBBox : BBoxJ
  enlargedBBox : BBoxJ
  adjustedBBox : BBoxJ
  actualAspect : JNum
  targetAspect : JNum
  pixelFactor : JNum

/-- Steps 1-5 of `captureCanvasAsImage` (part_002 lines 322-373): target
box from nodes and edges, 10% enlargement via `scaleBBox`, pixel ratio
(source name `pixelRatio`) from the enlarged size against the element's
client size, aspect adjustment against `canvasRect`, then the first
`zoomToRealBbox` + `setViewport`. -/
def firstFramingPass (env : Env) (c : Canvas) : FirstPass :=
  let targetBBox := calculateBoundingBox c.nodes c.edges
  let enlargedBBox := scaleBBox targetBBox (.fin (11/10))
  let enlargedWidth := jsub enlargedBBox.maxX enlargedBBox.minX
  let enlargedHeight := jsub enlargedBBox.maxY enlargedBBox.minY
  let requiredPixelFactor :=
    jmax (jdiv enlargedWidth (.fin c.clientWidth)) (jdiv enlargedHeight (.fin c.clientHeight))
  let pixelFactor := jround (jmul requiredPixelFactor (.fin 1))
  let actualAspect := jdiv (.fin c.canvasRect.width) (.fin c.canvasRect.height)
  let targetAspect := jdiv enlargedWidth enlargedHeight
  let adjustedBBox := adjustBBoxForAspect enlargedBBox actualAspect targetAspect
  let c1 := zoomToRealBbox env c adjustedBBox
  let c2 := c1.setViewport c1.tx c1.ty c1.tZoomExp
  ⟨c2, targetBBox, enlargedBBox, adjustedBBox, actualAspect, targetAspect, pixelFactor⟩

/-- The body of the `try` block of `captureCanvasAsImage` (part_002
lines 321-480): the two framing passes, the final dimension computation,
the readiness gate, and the rasterizer call.  Returns the outcome (the
thrown error or the extracted base64 payload), the canvas as the body
leaves it, and the number of rasterizer invocations. -/
def captureBody (env : Env) (c : Canvas) : Except String String × Canvas × ℕ :=
  let nodes := c.nodes
  let edges := c.edges
  let fp := firstFramingPass env c
  let canvasScale0 := extractCanvasScale (env.styleScaleAt 0)
  let enlargedEdgePathsBBox := edgeLabelPassBBox canvasScale0 edges
  let _enlargedBBox2 := combineBBoxes [fp.enlargedBBox, enlargedEdgePathsBBox]
  let adjustedBBox2 := combineBBoxes [fp.adjustedBBox, enlargedEdgePathsBBox]
  let c1 := zoomToRealBbox env fp.canvas adjustedBBox2
  let c2 := c1.setViewport c1.tx c1.ty c1.tZoomExp
  let canvasViewportBBox := env.viewportBBox
  let canvasScale1 := extractCanvasScale (env.styleScaleAt 1)
  let width0 := jmul (jsub canvasViewportBBox.maxX canvasViewportBBox.minX) (.fin canvasScale1)
  let height0 := jmul (jsub canvasViewportBBox.maxY canvasViewportBBox.minY) (.fin canvasScale1)
  let width := if jlt fp.targetAspect fp.actualAspect then jmul height0 fp.targetAspect else width0
  let height := if jlt fp.targetAspect fp.actualAspect then height0 else jdiv width0 fp.targetAspect
  let unloadedNodes := waitForNodesReady env nodes
  if !unloadedNodes.isEmpty then
    (.error ("Export cancelled: Nodes did not finish loading in time"), c2, 0)
  else
    let args : ToPngArgs :=
      { pixelFactor := fp.pixelFactor, backgroundColor := env.backgroundColor,
        height := height, width := width,
        filter := exportFilter (nodeElements c) (edgePathAndArrowElements c) (edgeLabelElements c) }
    match env.toPng args with
    | .error e => (.error e, c2, 1)
    | .ok dataUrl => (.ok ((dataUrl.splitOn (",")).getD 1 ("")), c2, 1)

/-- `classList.add`: appends the class unless already present. -/
def addClass (classes : List String) (cls : String) : List String :=
  if classes.contains cls then classes else classes ++ [cls]

/-- `classList.remove`: removes every occurrence of the class. -/
def removeClass (classes : List String) (cls : String) : List String :=
  classes.filter (fun s => s ≠ cls)

/-- `captureCanvasAsImage` (part_002 lines 285-492).  Zero nodes is a
terminal input error thrown before any state mutation.  Otherwise the
setup shows a notice, appends the interaction blocker, sets the
screenshotting flag and the `is-exporting` class, caches and clears the
selection, and caches the viewport; the `try` body runs; and the
`finally` block unconditionally sets `screenshotting` to `false`,
removes the `is-exporting` class, restores the cached selection,
restores the cached viewport via `setViewport`, and removes the
blocker. -/
def captureCanvasAsImage (env : Env) (canvas : Canvas) : CaptureResult :=
  if canvas.nodes.isEmpty then
    ⟨.error ("Canvas has no nodes to capture"), canvas, ⟨0, 0, false, 0⟩⟩
  else
    let cachedSelection := canvas.selection
    let cachedViewport := (canvas.x, canvas.y, canvas.zoom)
    let c1 := { canvas with
      screenshotting := true,
      canvasElClasses := addClass canvas.canvasElClasses ("is-exporting"),
      selection := [] }
    let bodyOut := captureBody env c1
    let c2 := bodyOut.2.1
    let c3 := { c2 with
      screenshotting := false,
      canvasElClasses := removeClass c2.canvasElClasses ("is-exporting"),
      selection := cachedSelection }
    let c4 := c3.setViewport cachedViewport.1 cachedViewport.2.1 cachedViewport.2.2
    ⟨bodyOut.1, c4, ⟨1, 1, false, bodyOut.2.2⟩⟩

/-- The character class `[a-zA-Z0-9.-]` of the `screenshot_canvas` tool's
sanitizer (part_001 line 56). -/
def isAllowedFilenameChar (ch : Char) : Bool :=
  (decide ('a' ≤ ch) && decide (ch ≤ 'z')) ||
  (decide ('A' ≤ ch) && decide (ch ≤ 'Z')) ||
  (decide ('0' ≤ ch) && decide (ch ≤ '9')) ||
  ch == '.' || ch == '-'

/-- `filename.replace(/[^a-zA-Z0-9.-]/g, "_")` (part_001 line 56): every
character outside the allowed class becomes an underscore. -/
def sanitizeFilename (s : String) : String :=
  String.mk (s.data.map (fun ch => if isAllowedFilenameChar ch then ch else '_'))

/-- The temp file name `canvas_screenshot_${sanitizedName}.png`
(part_001 line 57). -/
def canvasScreenshotTempName (filename : String) : String :=
  ("canvas_screenshot_") ++ sanitizeFilename filename ++ (".png")

/-- `path.join(tempDir, name)` for a separator-free name: the file sits
directly inside the temp directory. -/
def canvasScreenshotTempPath (tempDir filename : String) : String :=
  tempDir ++ ("/") ++ canvasScreenshotTempName filename

/-! ### Helper lemmas and witness fixtures -/

/-- Removing a class really removes it (membership form). -/
theorem not_mem_removeClass_self (cs : List String) (cls : String) :
    cls ∉ removeClass cs cls := by
  intro hmem
  have h2 := (List.mem_filter.mp hmem).2
  simp at h2

/-- Removing a class really removes it. -/
theorem removeClass_contains_self (cs : List String) (cls : String) :
    (removeClass cs cls).contains cls = false := by
  rw [Bool.eq_false_iff]
  intro hcon
  rw [List.contains, List.elem_iff] at hcon
  exact not_mem_removeClass_self cs cls hcon

/-- A background environment for concrete runs: style scale parses to 1,
every node is ready from the first tick, no Advanced Canvas, and the
rasterizer succeeds. -/
def envReady : Env :=
  { backgroundColor := ("#ffffff"),
    styleScaleAt := fun _ => some 1,
    viewportBBox := ⟨.fin 0, .fin 0, .fin 200, .fin 200⟩,
    initializedAt := fun _ _ => some true,
    mountedAt := fun _ _ => some true,
    acZoom := none,
    toPng := fun _ => .ok ("data:image/png;base64,QUJD") }

/-- A canvas with no nodes. -/
def emptyCanvas : Canvas :=
  { nodes := [], edges := [], screenshotting := false,
    canvasElClasses := [("canvas-wrapper")], selection := [7],
    x := .fin 3, y := .fin 4, zoom := .fin 1,
    tx := .fin 3, ty := .fin 4, tZoomExp := .fin 1,
    zoomCenter := none, canvasRect := ⟨200, 200⟩,
    clientWidth := 200, clientHeight := 200 }

/-- A canvas with one ordinary 100x100 node at the origin. -/
def oneNodeCanvas : Canvas :=
  { emptyCanvas with nodes := [⟨0, 0, 0, 100, 100, none, 11⟩] }

/-! ### C1: unconditional restore on every exit path -/

/-- C1: for every execution of `captureCanvasAsImage` that passes the
zero-node validation — whether the body returns image bytes or throws in
framing, the readiness wait, or the rasterizer call — the exit state has
the screenshotting flag false, the `is-exporting` class removed, the
selection equal to the selection captured at the start, the viewport
`(x, y, zoom)` equal to the viewport captured at the start, and the
interaction blocker removed from the DOM. -/
theorem captureCanvasAsImage_restores (env : Env) (c : Canvas) (h : c.nodes ≠ []) :
    (captureCanvasAsImage env c).canvas.screenshotting = false ∧
    (captureCanvasAsImage env c).canvas.canvasElClasses.contains ("is-exporting") = false ∧
    (captureCanvasAsImage env c).canvas.selection = c.selection ∧
    (captureCanvasAsImage env c).canvas.x = c.x ∧
    (captureCanvasAsImage env c).canvas.y = c.y ∧
    (captureCanvasAsImage env c).canvas.zoom = c.zoom ∧
    (captureCanvasAsImage env c).log.blockerInDom = false := by
  have hne : c.nodes.isEmpty = false := by
    cases hcn : c.nodes with
    | nil => exact absurd hcn h
    | cons a as => rfl
  simp [captureCanvasAsImage, hne, Canvas.setViewport, removeClass_contains_self, not_mem_removeClass_self]

/-- Witness for C1: a concrete one-node export run restores the state. -/
theorem captureCanvasAsImage_restores_witness :
    oneNodeCanvas.nodes ≠ [] ∧
    ((captureCanvasAsImage envReady oneNodeCanvas).canvas.screenshotting = false ∧
     (captureCanvasAsImage envReady oneNodeCanvas).canvas.canvasElClasses.contains
        ("is-exporting") = false ∧
     (captureCanvasAsImage envReady oneNodeCanvas).canvas.selection = oneNodeCanvas.selection ∧
     (captureCanvasAsImage envReady oneNodeCanvas).canvas.x = oneNodeCanvas.x ∧
     (captureCanvasAsImage envReady oneNodeCanvas).canvas.y = oneNodeCanvas.y ∧
     (captureCanvasAsImage envReady oneNodeCanvas).canvas.zoom = oneNodeCanvas.zoom ∧
     (captureCanvasAsImage envReady oneNodeCanvas).log.blockerInDom = false) :=
  ⟨by simp [oneNodeCanvas, emptyCanvas],
   captureCanvasAsImage_restores envReady oneNodeCanvas
     (by simp [oneNodeCanvas, emptyCanvas])⟩

/-! ### C5: zero nodes fail before any state mutation -/

/-- C5: on a canvas with zero nodes the export throws
"Canvas has no nodes to capture" and performs no state mutation at all:
no notice, no blocker install, no rasterizer call, and the returned
canvas — flag, selection, viewport included — is the input canvas. -/
theorem captureCanvasAsImage_emptyNodes (env : Env) (c : Canvas) (h : c.nodes = []) :
    captureCanvasAsImage env c =
      ⟨.error ("Canvas has no nodes to capture"), c, ⟨0, 0, false, 0⟩⟩ := by
  simp [captureCanvasAsImage, h]

/-- Witness for C5: the concrete zero-node canvas. -/
theorem captureCanvasAsImage_emptyNodes_witness :
    emptyCanvas.nodes = [] ∧
    captureCanvasAsImage envReady emptyCanvas =
      ⟨.error ("Canvas has no nodes to capture"), emptyCanvas, ⟨0, 0, false, 0⟩⟩ :=
  ⟨rfl, captureCanvasAsImage_emptyNodes envReady emptyCanvas rfl⟩

/-! ### C10: temp file name is sanitized and separator-free -/

/-- C10: for every user-supplied filename, the temp path the
`screenshot_canvas` tool writes to is the OS temp directory joined with
the single file-name component `canvas_screenshot_` + sanitized filename
+ `.png`, where sanitization replaces every character outside
`[a-zA-Z0-9.-]` by an underscore; consequently the file-name component
contains no path separator, so the file lies directly inside the temp
directory. -/
theorem canvasScreenshotTempPath_spec (tempDir filename : String) :
    canvasScreenshotTempPath tempDir filename =
      tempDir ++ ("/") ++ (("canvas_screenshot_") ++ sanitizeFilename filename ++ (".png")) ∧
    (canvasScreenshotTempName filename).data =
      ("canvas_screenshot_").data ++
        (filename.data.map (fun ch => if isAllowedFilenameChar ch then ch else '_')) ++
        (".png").data ∧
    (canvasScreenshotTempName filename).data.all
      (fun ch => !(ch == '/') && !(ch == '\\')) = true := by
  refine ⟨rfl, by simp [canvasScreenshotTempName, sanitizeFilename], ?_⟩
  have hmap : ∀ ch : Char,
      (!((if isAllowedFilenameChar ch then ch else '_') == '/') &&
        !((if isAllowedFilenameChar ch then ch else '_') == '\\')) = true := by
    intro ch
    by_cases h : isAllowedFilenameChar ch = true
    · rw [if_pos h]
      simp only [Bool.and_eq_true, Bool.not_eq_true']
      constructor
      · rw [beq_eq_false_iff_ne]
        intro he
        rw [he] at h
        exact absurd h (by decide)
      · rw [beq_eq_false_iff_ne]
        intro he
        rw [he] at h
        exact absurd h (by decide)
    · rw [if_neg h]
      decide
  simp only [canvasScreenshotTempName, sanitizeFilename, String.data_append, List.all_append,
    List.all_map, Bool.and_eq_true]
  refine ⟨⟨by decide, ?_⟩, by decide⟩
  rw [List.all_eq_true]
  intro ch _
  exact hmap ch

/-! ### C8: the capture filter excludes exactly the foreign elements -/

/-- C8: the inclusion predicate built for capture returns `false` exactly
for elements that are (a) node-shaped (`canvas-node` class) but not in
this document's node-element list, (b) children of an edge container
(parent class `canvas-edges`) but not in this document's edge
line/arrow-element list, or (c) label wrappers
(`canvas-path-label-wrapper` class) but not in this document's
label-element list; it returns `true` for every other element.  In
particular every node, edge or label element of a different canvas
sharing the render tree is excluded. -/
theorem exportFilter_false_iff (c : Canvas) (element : ElemInfo) :
    exportFilter (nodeElements c) (edgePathAndArrowElements c) (edgeLabelElements c)
        element = false ↔
      (element.classes.contains ("canvas-node") = true ∧
        element.elId ∉ nodeElements c) ∨
      ((∃ pcs, element.parentClasses = some pcs ∧ pcs.contains ("canvas-edges") = true) ∧
        element.elId ∉ edgePathAndArrowElements c) ∨
      (element.classes.contains ("canvas-path-label-wrapper") = true ∧
        element.elId ∉ edgeLabelElements c) := by
  unfold exportFilter
  cases hp : element.parentClasses with
  | none =>
    by_cases h1 : element.classes.contains ("canvas-node") = true <;>
      by_cases h2 : (nodeElements c).contains element.elId = true <;>
      by_cases h3 : element.classes.contains ("canvas-path-label-wrapper") = true <;>
      by_cases h4 : (edgeLabelElements c).contains element.elId = true <;>
      simp_all [List.contains, List.elem_iff]
  | some pcs =>
    by_cases h1 : element.classes.contains ("canvas-node") = true <;>
      by_cases h2 : (nodeElements c).contains element.elId = true <;>
      by_cases h3 : element.classes.contains ("canvas-path-label-wrapper") = true <;>
      by_cases h4 : (edgeLabelElements c).contains element.elId = true <;>
      by_cases h5 : pcs.contains ("canvas-edges") = true <;>
      by_cases h6 : (edgePathAndArrowElements c).contains element.elId = true <;>
      simp_all [List.contains, List.elem_iff]

/-! ### C9: `combineBBoxes` is the least enclosing box -/

namespace JNum

/-- `jle` is reflexive away from NaN. -/
theorem jle_refl_of_ne_nan : ∀ {x : JNum}, x ≠ .nan → jle x x = true := by
  intro x hx
  cases x <;> simp_all [jle]

/-- `jle` is transitive. -/
theorem jle_trans : ∀ {x y z : JNum},
    jle x y = true → jle y z = true → jle x z = true := by
  intro x y z h1 h2
  cases x <;> cases y <;> cases z <;> simp_all [jle]
  exact le_trans h1 h2

/-- `Math.min` of non-NaN values is not NaN. -/
theorem jmin_ne_nan : ∀ {x y : JNum}, x ≠ .nan → y ≠ .nan → jmin x y ≠ .nan := by
  intro x y hx hy
  cases x <;> cases y <;> simp_all [jmin] <;> split <;> simp

/-- `Math.max` of non-NaN values is not NaN. -/
theorem jmax_ne_nan : ∀ {x y : JNum}, x ≠ .nan → y ≠ .nan → jmax x y ≠ .nan := by
  intro x y hx hy
  cases x <;> cases y <;> simp_all [jmax] <;> split <;> simp

/-- A true `jle` comparison has NaN on neither side. -/
theorem jle_ne_nan : ∀ {x y : JNum}, jle x y = true → x ≠ .nan ∧ y ≠ .nan := by
  intro x y h
  cases x <;> cases y <;> simp_all [jle]

/-- Totality of `jle` away from NaN. -/
theorem jle_total_of_not : ∀ {x y : JNum}, x ≠ .nan → y ≠ .nan →
    ¬ jle x y = true → jle y x = true := by
  intro x y hx hy h
  cases x <;> cases y <;> simp_all [jle]
  linarith

/-- Away from NaN, `Math.min` picks one of its arguments by `jle`. -/
theorem jmin_eq_ite : ∀ {x y : JNum}, x ≠ .nan → y ≠ .nan →
    jmin x y = if jle x y then x else y := by
  intro x y hx hy
  cases x <;> cases y <;> simp_all [jmin]

/-- Away from NaN, `Math.max` picks one of its arguments by `jle`. -/
theorem jmax_eq_ite : ∀ {x y : JNum}, x ≠ .nan → y ≠ .nan →
    jmax x y = if jle y x then x else y := by
  intro x y hx hy
  cases x <;> cases y <;> simp_all [jmax]

/-- Away from NaN, `Math.min` is below its left argument. -/
theorem jmin_le_left {x y : JNum} (hx : x ≠ .nan) (hy : y ≠ .nan) :
    jle (jmin x y) x = true := by
  rw [jmin_eq_ite hx hy]
  by_cases h : jle x y = true
  · rw [if_pos h]
    exact jle_refl_of_ne_nan hx
  · rw [if_neg h]
    exact jle_total_of_not hx hy h

/-- Away from NaN, `Math.min` is below its right argument. -/
theorem jmin_le_right {x y : JNum} (hx : x ≠ .nan) (hy : y ≠ .nan) :
    jle (jmin x y) y = true := by
  rw [jmin_eq_ite hx hy]
  by_cases h : jle x y = true
  · rw [if_pos h]
    exact h
  · rw [if_neg h]
    exact jle_refl_of_ne_nan hy

/-- A common lower bound is below `Math.min`. -/
theorem le_jmin {m x y : JNum} (h1 : jle m x = true) (h2 : jle m y = true) :
    jle m (jmin x y) = true := by
  rw [jmin_eq_ite (jle_ne_nan h1).2 (jle_ne_nan h2).2]
  by_cases h : jle x y = true
  · rw [if_pos h]
    exact h1
  · rw [if_neg h]
    exact h2

/-- Away from NaN, `Math.max` is above its left argument. -/
theorem le_jmax_left {x y : JNum} (hx : x ≠ .nan) (hy : y ≠ .nan) :
    jle x (jmax x y) = true := by
  rw [jmax_eq_ite hx hy]
  by_cases h : jle y x = true
  · rw [if_pos h]
    exact jle_refl_of_ne_nan hx
  · rw [if_neg h]
    exact jle_total_of_not hy hx h

/-- Away from NaN, `Math.max` is above its right argument. -/
theorem le_jmax_right {x y : JNum} (hx : x ≠ .nan) (hy : y ≠ .nan) :
    jle y (jmax x y) = true := by
  rw [jmax_eq_ite hx hy]
  by_cases h : jle y x = true
  · rw [if_pos h]
    exact h
  · rw [if_neg h]
    exact jle_refl_of_ne_nan hy

/-- A common upper bound is above `Math.max`. -/
theorem jmax_le {m x y : JNum} (h1 : jle x m = true) (h2 : jle y m = true) :
    jle (jmax x y) m = true := by
  rw [jmax_eq_ite (jle_ne_nan h1).1 (jle_ne_nan h2).1]
  by_cases h : jle y x = true
  · rw [if_pos h]
    exact h1
  · rw [if_neg h]
    exact h2

/-- Everything non-NaN is at most `Infinity`. -/
theorem jle_pinf : ∀ {x : JNum}, x ≠ .nan → jle x .pinf = true := by
  intro x hx
  cases x <;> simp_all [jle]

/-- `-Infinity` is at most everything non-NaN. -/
theorem ninf_jle : ∀ {x : JNum}, x ≠ .nan → jle .ninf x = true := by
  intro x hx
  cases x <;> simp_all [jle]

/-- `Math.min` with `Infinity` on the left is the identity. -/
theorem jmin_pinf_left : ∀ x : JNum, jmin .pinf x = x := by
  intro x
  cases x <;> simp [jmin, jle]

/-- `Math.max` with `-Infinity` on the left is the identity. -/
theorem jmax_ninf_left : ∀ x : JNum, jmax .ninf x = x := by
  intro x
  cases x <;> simp [jmax, jle]

end JNum

/-- A box none of whose corners is NaN. -/
def boxNoNaN (b : BBoxJ) : Prop :=
  b.minX ≠ .nan ∧ b.minY ≠ .nan ∧ b.maxX ≠ .nan ∧ b.maxY ≠ .nan

instance (b : BBoxJ) : Decidable (boxNoNaN b) := by
  unfold boxNoNaN
  infer_instance

/-- `outer` contains `inner`, corner-wise in the JS order. -/
def boxContains (outer inner : BBoxJ) : Prop :=
  jle outer.minX inner.minX = true ∧ jle outer.minY inner.minY = true ∧
  jle inner.maxX outer.maxX = true ∧ jle inner.maxY outer.maxY = true

instance (outer inner : BBoxJ) : Decidable (boxContains outer inner) := by
  unfold boxContains
  infer_instance

/-- Containment is transitive. -/
theorem boxContains_trans {r s t : BBoxJ}
    (h1 : boxContains r s) (h2 : boxContains s t) : boxContains r t :=
  ⟨jle_trans h1.1 h2.1, jle_trans h1.2.1 h2.2.1,
   jle_trans h2.2.2.1 h1.2.2.1, jle_trans h2.2.2.2 h1.2.2.2⟩

/-- The combine step preserves NaN-freedom. -/
theorem combineStep_noNaN {acc b : BBoxJ} (ha : boxNoNaN acc) (hb : boxNoNaN b) :
    boxNoNaN (combineStep acc b) :=
  ⟨jmin_ne_nan ha.1 hb.1, jmin_ne_nan ha.2.1 hb.2.1,
   jmax_ne_nan ha.2.2.1 hb.2.2.1, jmax_ne_nan ha.2.2.2 hb.2.2.2⟩

/-- The combine step contains its accumulator. -/
theorem combineStep_contains_acc {acc b : BBoxJ} (ha : boxNoNaN acc) (hb : boxNoNaN b) :
    boxContains (combineStep acc b) acc :=
  ⟨jmin_le_left ha.1 hb.1, jmin_le_left ha.2.1 hb.2.1,
   le_jmax_left ha.2.2.1 hb.2.2.1, le_jmax_left ha.2.2.2 hb.2.2.2⟩

/-- The combine step contains its new box. -/
theorem combineStep_contains_box {acc b : BBoxJ} (ha : boxNoNaN acc) (hb : boxNoNaN b) :
    boxContains (combineStep acc b) b :=
  ⟨jmin_le_right ha.1 hb.1, jmin_le_right ha.2.1 hb.2.1,
   le_jmax_right ha.2.2.1 hb.2.2.1, le_jmax_right ha.2.2.2 hb.2.2.2⟩

/-- A box containing the accumulator and the new box contains the step. -/
theorem combineStep_least {o acc b : BBoxJ}
    (h1 : boxContains o acc) (h2 : boxContains o b) :
    boxContains o (combineStep acc b) :=
  ⟨le_jmin h1.1 h2.1, le_jmin h1.2.1 h2.2.1,
   jmax_le h1.2.2.1 h2.2.2.1, jmax_le h1.2.2.2 h2.2.2.2⟩

/-- Invariant of the `combineBBoxes` fold: starting from any NaN-free
accumulator, the fold is NaN-free, contains every folded box and the
accumulator, and is least among the NaN-free boxes doing so. -/
theorem combineFold_spec :
    ∀ (bs : List BBoxJ) (acc : BBoxJ), boxNoNaN acc → (∀ b ∈ bs, boxNoNaN b) →
      boxNoNaN (bs.foldl combineStep acc) ∧
      (∀ b ∈ bs, boxContains (bs.foldl combineStep acc) b) ∧
      boxContains (bs.foldl combineStep acc) acc ∧
      (∀ o, boxContains o acc → (∀ b ∈ bs, boxContains o b) →
        boxContains o (bs.foldl combineStep acc)) := by
  intro bs
  induction bs with
  | nil =>
    intro acc hacc _
    refine ⟨hacc, by simp, ?_, ?_⟩
    · exact ⟨jle_refl_of_ne_nan hacc.1, jle_refl_of_ne_nan hacc.2.1,
        jle_refl_of_ne_nan hacc.2.2.1, jle_refl_of_ne_nan hacc.2.2.2⟩
    · intro o ho _
      simpa using ho
  | cons b bs ih =>
    intro acc hacc hball
    have hb : boxNoNaN b := hball b (by simp)
    have hbs : ∀ x ∈ bs, boxNoNaN x := fun x hx => hball x (by simp [hx])
    have hstep : boxNoNaN (combineStep acc b) := combineStep_noNaN hacc hb
    obtain ⟨ih1, ih2, ih3, ih4⟩ := ih (combineStep acc b) hstep hbs
    refine ⟨by simpa using ih1, ?_, ?_, ?_⟩
    · intro x hx
      rcases List.mem_cons.mp hx with heq | hmem
      · subst heq
        exact boxContains_trans (by simpa using ih3) (combineStep_contains_box hacc hb)
      · simpa using ih2 x hmem
    · exact boxContains_trans (by simpa using ih3) (combineStep_contains_acc hacc hb)
    · intro o ho hob
      have hob' : boxContains o (combineStep acc b) :=
        combineStep_least ho (hob b (by simp))
      simpa using ih4 o hob' (fun x hx => hob x (by simp [hx]))

/-- C9: `combineBBoxes` returns the smallest box containing all the
input boxes (its minima/maxima are exactly the componentwise
minima/maxima); the empty list yields the degenerate box with
`minX=minY=+Infinity`, `maxX=maxY=-Infinity`; and a single box is
returned unchanged. -/
theorem combineBBoxes_spec (bs : List BBoxJ) (h : ∀ b ∈ bs, boxNoNaN b) :
    (∀ b ∈ bs, boxContains (combineBBoxes bs) b) ∧
    (∀ o, boxNoNaN o → (∀ b ∈ bs, boxContains o b) → boxContains o (combineBBoxes bs)) ∧
    combineBBoxes [] = ⟨.pinf, .pinf, .ninf, .ninf⟩ ∧
    (∀ b, combineBBoxes [b] = b) := by
  have hinit : boxNoNaN (⟨.pinf, .pinf, .ninf, .ninf⟩ : BBoxJ) := by
    refine ⟨?_, ?_, ?_, ?_⟩ <;> simp
  obtain ⟨_, h2, _, h4⟩ := combineFold_spec bs ⟨.pinf, .pinf, .ninf, .ninf⟩ hinit h
  refine ⟨h2, ?_, rfl, ?_⟩
  · intro o ho hob
    exact h4 o ⟨jle_pinf ho.1, jle_pinf ho.2.1, ninf_jle ho.2.2.1, ninf_jle ho.2.2.2⟩ hob
  · intro b
    show combineStep ⟨.pinf, .pinf, .ninf, .ninf⟩ b = b
    simp [combineStep, jmin_pinf_left, jmax_ninf_left]

/-- Witness for C9: the least enclosing box of two concrete boxes. -/
theorem combineBBoxes_spec_witness :
    (∀ b ∈ [(⟨.fin 0, .fin 0, .fin 1, .fin 1⟩ : BBoxJ), ⟨.fin (-2), .fin 3, .fin 5, .fin 4⟩],
      boxNoNaN b) ∧
    (∀ b ∈ [(⟨.fin 0, .fin 0, .fin 1, .fin 1⟩ : BBoxJ), ⟨.fin (-2), .fin 3, .fin 5, .fin 4⟩],
      boxContains
        (combineBBoxes [⟨.fin 0, .fin 0, .fin 1, .fin 1⟩, ⟨.fin (-2), .fin 3, .fin 5, .fin 4⟩]) b) :=
  ⟨by simp [boxNoNaN],
   (combineBBoxes_spec _ (by simp [boxNoNaN])).1⟩

/-! ### C3: the second-pass label padding is absolute, not 10% -/

namespace JNum

/-- Adding a finite constant preserves the `jle` order. -/
theorem jle_add_const : ∀ (a b : JNum) (p : ℚ),
    jle (jadd a (.fin p)) (jadd b (.fin p)) = jle a b := by
  intro a b p
  cases a <;> cases b <;> simp [jadd, jle]

/-- Adding a finite constant to a non-NaN value is non-NaN. -/
theorem jadd_const_ne_nan : ∀ {a : JNum} (p : ℚ), a ≠ .nan → jadd a (.fin p) ≠ .nan := by
  intro a p ha
  cases a <;> simp_all [jadd]

/-- Adding a finite constant distributes over `Math.min`. -/
theorem jmin_add_const : ∀ (a b : JNum) (p : ℚ),
    jadd (jmin a b) (.fin p) = jmin (jadd a (.fin p)) (jadd b (.fin p)) := by
  intro a b p
  by_cases ha : a = .nan
  · subst ha
    cases b <;> simp [jmin, jadd]
  · by_cases hb : b = .nan
    · subst hb
      cases a <;> simp [jmin, jadd]
    · rw [jmin_eq_ite ha hb,
        jmin_eq_ite (jadd_const_ne_nan p ha) (jadd_const_ne_nan p hb),
        jle_add_const, apply_ite (fun x => jadd x (.fin p))]

/-- Adding a finite constant distributes over `Math.max`. -/
theorem jmax_add_const : ∀ (a b : JNum) (p : ℚ),
    jadd (jmax a b) (.fin p) = jmax (jadd a (.fin p)) (jadd b (.fin p)) := by
  intro a b p
  by_cases ha : a = .nan
  · subst ha
    cases b <;> simp [jmax, jadd]
  · by_cases hb : b = .nan
    · subst hb
      cases a <;> simp [jmax, jadd]
    · rw [jmax_eq_ite ha hb,
        jmax_eq_ite (jadd_const_ne_nan p ha) (jadd_const_ne_nan p hb),
        jle_add_const, apply_ite (fun x => jadd x (.fin p))]

end JNum

/-- Absolute padding commutes with one combine step. -/
theorem enlargeBBox_combineStep (acc b : BBoxJ) (p : ℚ) :
    enlargeBBox (combineStep acc b) (.fin p) =
      combineStep (enlargeBBox acc (.fin p)) (enlargeBBox b (.fin p)) := by
  simp only [enlargeBBox, combineStep, jsub, jneg, jmin_add_const, jmax_add_const]

/-- Absolute padding commutes with the whole `combineBBoxes` fold. -/
theorem enlargeBBox_foldl (p : ℚ) :
    ∀ (l : List BBoxJ) (acc : BBoxJ),
      enlargeBBox (l.foldl combineStep acc) (.fin p) =
        (l.map (fun b => enlargeBBox b (.fin p))).foldl combineStep
          (enlargeBBox acc (.fin p)) := by
  intro l
  induction l with
  | nil => intro acc; rfl
  | cons b bs ih =>
    intro acc
    simp only [List.foldl_cons, List.map_cons, ih, enlargeBBox_combineStep]

/-- Absolute padding commutes with `combineBBoxes`: padding the combined
box equals combining the individually padded boxes (the degenerate
infinite seed is fixed by finite padding). -/
theorem enlargeBBox_combineBBoxes (l : List BBoxJ) (p : ℚ) :
    enlargeBBox (combineBBoxes l) (.fin p) =
      combineBBoxes (l.map (fun b => enlargeBBox b (.fin p))) := by
  unfold combineBBoxes
  rw [enlargeBBox_foldl]
  congr 1

/-- The second-pass label box computed the way claim C3 words it:
each label rectangle enlarged by the *factor* 1.1 (10% of its own size,
via `scaleBBox`) before combination.  This definition follows the spec's
words and exists only to be compared with the source's
`edgeLabelPassBBox`. -/
def edgeLabelPassBBoxClaimed (canvasScale : ℚ) (edges : List CanvasEdge) : BBoxJ :=
  combineBBoxes (edges.map (fun e => scaleBBox (edgeLabelBox canvasScale e) (.fin (11/10))))

/-- A concrete labeled edge: center (50, 0), label wrapper 100 px wide. -/
def labeledEdge : CanvasEdge := ⟨0, none, 50, 0, 20, 21, some ⟨22, 100⟩⟩

/-- Counterexample to C3: for a single 100-wide label rectangle at render
scale 1, the code's second-pass working box pads the combined label box
by the absolute amount 1.1 on each side (`enlargeBBox`), which differs
from the box obtained by enlarging the label rectangle by 10% of its own
size as the claim states. -/
theorem edgeLabelPassBBox_counterexample :
    edgeLabelPassBBox 1 [labeledEdge] =
      ⟨.fin (-11/10), .fin (-11/10), .fin (1011/10), .fin (11/10)⟩ ∧
    edgeLabelPassBBoxClaimed 1 [labeledEdge] =
      ⟨.fin (-5), .fin 0, .fin 105, .fin 0⟩ ∧
    edgeLabelPassBBox 1 [labeledEdge] ≠ edgeLabelPassBBoxClaimed 1 [labeledEdge] := by
  refine ⟨?_, ?_, ?_⟩ <;>
    norm_num [edgeLabelPassBBox, edgeLabelPassBBoxClaimed, edgeLabelBox, labeledEdge,
      enlargeBBox, scaleBBox, combineBBoxes, combineStep, jmin, jmax, jadd, jsub, jneg,
      jmul, jdiv, jle]

/-- C3 (amended): in the second framing pass the per-edge label
rectangles, measured at the current render scale, are each padded by the
*absolute* amount 1.1 canvas units on all four sides (`enlargeBBox`,
not a 10% enlargement) before being combined into the working box:
the code's pad-after-combine equals pad-each-then-combine. -/
theorem edgeLabelPassBBox_absolutePad (canvasScale : ℚ) (edges : List CanvasEdge) :
    edgeLabelPassBBox canvasScale edges =
      combineBBoxes (edges.map
        (fun e => enlargeBBox (edgeLabelBox canvasScale e) (.fin (11/10)))) := by
  unfold edgeLabelPassBBox
  rw [enlargeBBox_combineBBoxes, List.map_map]
  rfl

/-! ### C2: no fail-fast on degenerate target boxes -/

/-- The wait loop returns immediately once the unloaded list is empty. -/
theorem waitLoop_nil (env : Env) (nodes : List CanvasNode) (maxWait : ℕ) :
    ∀ fuel t, waitLoop env nodes maxWait fuel t [] = [] := by
  intro fuel t
  cases fuel <;> simp [waitLoop]

/-- A canvas whose single node has zero width (a degenerate target box). -/
def zeroWidthCanvas : Canvas :=
  { emptyCanvas with nodes := [⟨0, 0, 0, 0, 100, none, 11⟩] }

/-- Counterexample to C2: on a canvas whose computed target bounding box
has zero width, `captureCanvasAsImage` does *not* fail fast with a
degenerate-geometry error — it runs to completion and returns the image
payload. -/
theorem captureZeroWidth_noError :
    (jsub (calculateBoundingBox zeroWidthCanvas.nodes zeroWidthCanvas.edges).maxX
       (calculateBoundingBox zeroWidthCanvas.nodes zeroWidthCanvas.edges).minX = .fin 0) ∧
    (captureCanvasAsImage envReady zeroWidthCanvas).result.isOk = true := by
  constructor
  · norm_num [calculateBoundingBox, zeroWidthCanvas, emptyCanvas, nodeFallbackBBox,
      combineBBoxes, combineStep, jmin, jmax, jsub, jadd, jneg, jle]
  · norm_num [captureCanvasAsImage, captureBody, firstFramingPass, zeroWidthCanvas,
      emptyCanvas, envReady, calculateBoundingBox, nodeFallbackBBox, combineBBoxes,
      combineStep, scaleBBox, enlargeBBox, adjustBBoxForAspect, zoomToRealBbox,
      Canvas.setViewport, edgeLabelPassBBox, edgeLabelBox, extractCanvasScale,
      waitForNodesReady, unreadyAt, waitLoop_nil, jmin, jmax, jadd, jsub, jneg, jmul,
      jdiv, jle, jlt, jround, Except.isOk, Except.toBool]

/-- C2 (amended): the export never raises a degenerate-geometry error
(the counterexample run completes); instead the fallback
`zoomToRealBbox` guards a box of non-positive width or height by
returning with no canvas mutation at all, so no division by zero is
performed in the zoom computation. -/
theorem zoomToRealBbox_degenerate (env : Env) (c : Canvas) (bbox : BBoxJ)
    (hac : env.acZoom = none)
    (hdeg : jle (jsub bbox.maxX bbox.minX) (.fin 0) = true ∨
      jle (jsub bbox.maxY bbox.minY) (.fin 0) = true) :
    zoomToRealBbox env c bbox = c := by
  unfold zoomToRealBbox
  rw [hac]
  by_cases hrect : c.canvasRect.width = 0 ∨ c.canvasRect.height = 0
  · rw [if_pos hrect]
  · rw [if_neg hrect]
    rcases hdeg with h | h <;> simp [h]

/-- Witness for the amended C2: a concrete zero-width box leaves a
concrete canvas untouched. -/
theorem zoomToRealBbox_degenerate_witness :
    envReady.acZoom = none ∧
    (jle (jsub (BBoxJ.mk (.fin 0) (.fin 0) (.fin 0) (.fin 5)).maxX
        (BBoxJ.mk (.fin 0) (.fin 0) (.fin 0) (.fin 5)).minX) (.fin 0) = true) ∧
    zoomToRealBbox envReady emptyCanvas ⟨.fin 0, .fin 0, .fin 0, .fin 5⟩ = emptyCanvas :=
  ⟨rfl, by norm_num [jle, jsub, jadd, jneg],
   zoomToRealBbox_degenerate envReady emptyCanvas _ rfl
     (Or.inl (by norm_num [jle, jsub, jadd, jneg]))⟩

/-! ### C7: aspect adjustment anchors the top-left corner -/

/-- C7: for every non-degenerate enlarged working box and positive render
surface, the aspect-ratio adjustment keeps the box's top-left corner
fixed; it extends exactly one of `maxX` (when the surface aspect ratio
exceeds the box's) or `maxY` (otherwise), never shrinking it; and the
adjusted box's width/height ratio equals the render surface's
width/height ratio.  It never re-centers the box. -/
theorem adjustBBoxForAspect_spec (mX mY MX MY sw sh : ℚ)
    (hx : mX < MX) (hy : mY < MY) (hsw : 0 < sw) (hsh : 0 < sh) :
    (adjustBBoxForAspect ⟨.fin mX, .fin mY, .fin MX, .fin MY⟩
        (jdiv (.fin sw) (.fin sh))
        (jdiv (jsub (.fin MX) (.fin mX)) (jsub (.fin MY) (.fin mY)))).minX = .fin mX ∧
    (adjustBBoxForAspect ⟨.fin mX, .fin mY, .fin MX, .fin MY⟩
        (jdiv (.fin sw) (.fin sh))
        (jdiv (jsub (.fin MX) (.fin mX)) (jsub (.fin MY) (.fin mY)))).minY = .fin mY ∧
    (jdiv
      (jsub (adjustBBoxForAspect ⟨.fin mX, .fin mY, .fin MX, .fin MY⟩
          (jdiv (.fin sw) (.fin sh))
          (jdiv (jsub (.fin MX) (.fin mX)) (jsub (.fin MY) (.fin mY)))).maxX
        (.fin mX))
      (jsub (adjustBBoxForAspect ⟨.fin mX, .fin mY, .fin MX, .fin MY⟩
          (jdiv (.fin sw) (.fin sh))
          (jdiv (jsub (.fin MX) (.fin mX)) (jsub (.fin MY) (.fin mY)))).maxY
        (.fin mY)) = .fin (sw / sh)) ∧
    ((MX - mX) / (MY - mY) < sw / sh →
      (adjustBBoxForAspect ⟨.fin mX, .fin mY, .fin MX, .fin MY⟩
          (jdiv (.fin sw) (.fin sh))
          (jdiv (jsub (.fin MX) (.fin mX)) (jsub (.fin MY) (.fin mY)))).maxY = .fin MY ∧
      (adjustBBoxForAspect ⟨.fin mX, .fin mY, .fin MX, .fin MY⟩
          (jdiv (.fin sw) (.fin sh))
          (jdiv (jsub (.fin MX) (.fin mX)) (jsub (.fin MY) (.fin mY)))).maxX =
        .fin (mX + (MY - mY) * (sw / sh)) ∧
      MX ≤ mX + (MY - mY) * (sw / sh)) ∧
    (¬ ((MX - mX) / (MY - mY) < sw / sh) →
      (adjustBBoxForAspect ⟨.fin mX, .fin mY, .fin MX, .fin MY⟩
          (jdiv (.fin sw) (.fin sh))
          (jdiv (jsub (.fin MX) (.fin mX)) (jsub (.fin MY) (.fin mY)))).maxX = .fin MX ∧
      (adjustBBoxForAspect ⟨.fin mX, .fin mY, .fin MX, .fin MY⟩
          (jdiv (.fin sw) (.fin sh))
          (jdiv (jsub (.fin MX) (.fin mX)) (jsub (.fin MY) (.fin mY)))).maxY =
        .fin (mY + (MX - mX) / (sw / sh)) ∧
      MY ≤ mY + (MX - mX) / (sw / sh)) := by
  have hsh' : sh ≠ 0 := ne_of_gt hsh
  have hyd : (0:ℚ) < MY - mY := sub_pos.mpr hy
  have hxd : (0:ℚ) < MX - mX := sub_pos.mpr hx
  have hyd' : MY - mY ≠ 0 := ne_of_gt hyd
  have hxd' : MX - mX ≠ 0 := ne_of_gt hxd
  have haspect : (0:ℚ) < sw / sh := div_pos hsw hsh
  have haspect' : sw / sh ≠ 0 := ne_of_gt haspect
  have hsub1 : jsub (.fin MX) (.fin mX) = .fin (MX - mX) := by
    simp [jsub, jadd, jneg, sub_eq_add_neg]
  have hsub2 : jsub (.fin MY) (.fin mY) = .fin (MY - mY) := by
    simp [jsub, jadd, jneg, sub_eq_add_neg]
  have hdiv1 : jdiv (.fin sw) (.fin sh) = .fin (sw / sh) := by
    simp [jdiv, hsh']
  have hdiv2 : jdiv (.fin (MX - mX)) (.fin (MY - mY)) = .fin ((MX - mX) / (MY - mY)) := by
    simp [jdiv, hyd']
  rw [hsub1, hsub2, hdiv1, hdiv2]
  unfold adjustBBoxForAspect
  by_cases h : (MX - mX) / (MY - mY) < sw / sh
  · rw [if_pos (by simp [jlt, h])]
    have hmaxX : jadd (.fin mX)
        (jmul (jsub (.fin MY) (.fin mY)) (.fin (sw / sh))) =
        .fin (mX + (MY - mY) * (sw / sh)) := by
      rw [hsub2]
      simp [jmul, jadd]
    refine ⟨rfl, rfl, ?_, fun _ => ⟨rfl, by simpa using hmaxX, ?_⟩, fun hc => absurd h hc⟩
    · show jdiv (jsub (jadd (.fin mX) (jmul (jsub (.fin MY) (.fin mY)) (.fin (sw / sh))))
          (.fin mX)) (jsub (.fin MY) (.fin mY)) = .fin (sw / sh)
      rw [hmaxX, hsub2]
      have : jsub (.fin (mX + (MY - mY) * (sw / sh))) (.fin mX) =
          .fin ((MY - mY) * (sw / sh)) := by
        simp [jsub, jadd, jneg]
      rw [this]
      simp only [jdiv, if_neg hyd']
      congr 1
      field_simp
      ring
    · have := (div_lt_iff₀ hyd).mp h
      nlinarith
  · rw [if_neg (by simp [jlt, h])]
    have hmaxY : jadd (.fin mY)
        (jdiv (jsub (.fin MX) (.fin mX)) (.fin (sw / sh))) =
        .fin (mY + (MX - mX) / (sw / sh)) := by
      rw [hsub1]
      simp [jdiv, jadd, haspect']
    refine ⟨rfl, rfl, ?_, fun hc => absurd hc h, fun _ => ⟨rfl, by simpa using hmaxY, ?_⟩⟩
    · show jdiv (jsub (.fin MX) (.fin mX))
          (jsub (jadd (.fin mY) (jdiv (jsub (.fin MX) (.fin mX)) (.fin (sw / sh))))
            (.fin mY)) = .fin (sw / sh)
      rw [hmaxY, hsub1]
      have : jsub (.fin (mY + (MX - mX) / (sw / sh))) (.fin mY) =
          .fin ((MX - mX) / (sw / sh)) := by
        simp [jsub, jadd, jneg]
      rw [this]
      have hq : (MX - mX) / (sw / sh) ≠ 0 := div_ne_zero hxd' haspect'
      simp only [jdiv, if_neg hq]
      congr 1
      field_simp
      ring
    · have h1 : sw / sh * (MY - mY) ≤ MX - mX := by
        have := not_lt.mp h
        calc sw / sh * (MY - mY) ≤ (MX - mX) / (MY - mY) * (MY - mY) := by
              exact mul_le_mul_of_nonneg_right this (le_of_lt hyd)
          _ = MX - mX := by field_simp
      have h2 : MY - mY ≤ (MX - mX) / (sw / sh) := by
        rw [le_div_iff₀ haspect]
        linarith [h1, mul_comm (sw / sh) (MY - mY)]
      linarith

/-- Witness for C7: a concrete wide surface extends `maxX` only. -/
theorem adjustBBoxForAspect_spec_witness :
    ((0:ℚ) < 4 ∧ (0:ℚ) < 2 ∧ (0:ℚ) < 2 ∧ (0:ℚ) < 1) ∧
    (adjustBBoxForAspect ⟨.fin 0, .fin 0, .fin 4, .fin 2⟩
        (jdiv (.fin 2) (.fin 1))
        (jdiv (jsub (.fin 4) (.fin 0)) (jsub (.fin 2) (.fin 0)))).minX = .fin 0 := by
  refine ⟨by norm_num, ?_⟩
  exact (adjustBBoxForAspect_spec 0 0 4 2 2 1 (by norm_num) (by norm_num)
    (by norm_num) (by norm_num)).1

/-! ### C6: first-pass zoom on a square node, unclamped in export mode -/

/-- `Math.min` of two equal finite values. -/
theorem jmin_fin_eq (q : ℚ) : jmin (.fin q) (.fin q) = .fin q := by
  simp [jmin, jle]

/-- `Math.min` of two finite values is the rational minimum. -/
theorem jmin_fin_fin (p q : ℚ) : jmin (.fin p) (.fin q) = .fin (min p q) := by
  simp only [jmin, jle]
  by_cases h : p ≤ q
  · simp [h, min_eq_left h]
  · simp [h, min_eq_right (le_of_not_le h)]

/-- The fallback `zoomToRealBbox` on a finite non-degenerate box: zoom is
the minimum of the two surface/box ratios (clamped to at most 1 only when
not screenshotting), pan is the box center. -/
theorem zoomToRealBbox_fallback (env : Env) (c : Canvas) (a b A B : ℚ)
    (hac : env.acZoom = none) (hrw : c.canvasRect.width ≠ 0)
    (hrh : c.canvasRect.height ≠ 0) (hA : a < A) (hB : b < B) :
    zoomToRealBbox env c ⟨.fin a, .fin b, .fin A, .fin B⟩ =
      { c with
        tZoomExp :=
          if c.screenshotting then
            jmin (.fin (c.canvasRect.width / (A - a))) (.fin (c.canvasRect.height / (B - b)))
          else
            jmin (jmin (.fin (c.canvasRect.width / (A - a)))
              (.fin (c.canvasRect.height / (B - b)))) (.fin 1),
        zoomCenter := none,
        tx := .fin ((a + A) / 2), ty := .fin ((b + B) / 2) } := by
  have hA' : A - a ≠ 0 := ne_of_gt (sub_pos.mpr hA)
  have hB' : B - b ≠ 0 := ne_of_gt (sub_pos.mpr hB)
  have hsubA : jsub (.fin A) (.fin a) = .fin (A - a) := by
    simp [jsub, jadd, jneg, sub_eq_add_neg]
  have hsubB : jsub (.fin B) (.fin b) = .fin (B - b) := by
    simp [jsub, jadd, jneg, sub_eq_add_neg]
  unfold zoomToRealBbox
  rw [hac]
  have hrect : ¬ (c.canvasRect.width = 0 ∨ c.canvasRect.height = 0) := by
    push_neg
    exact ⟨hrw, hrh⟩
  rw [if_neg hrect]
  simp only [hsubA, hsubB]
  have hguard : (jle (.fin (A - a)) (.fin 0) || jle (.fin (B - b)) (.fin 0)) = false := by
    simp [jle]
    constructor <;> linarith
  rw [if_neg (by rw [hguard]; simp)]
  have hdA : jdiv (.fin c.canvasRect.width) (.fin (A - a)) = .fin (c.canvasRect.width / (A - a)) := by
    simp [jdiv, hA']
  have hdB : jdiv (.fin c.canvasRect.height) (.fin (B - b)) = .fin (c.canvasRect.height / (B - b)) := by
    simp [jdiv, hB']
  rw [hdA, hdB]
  have htx : jdiv (jadd (.fin a) (.fin A)) (.fin 2) = .fin ((a + A) / 2) := by
    simp [jdiv, jadd]
  have hty : jdiv (jadd (.fin b) (.fin B)) (.fin 2) = .fin ((b + B) / 2) := by
    simp [jdiv, jadd]
  rw [htx, hty]

/-- The single square node of claim C6: width = height = W at the
origin, reporting no refined bounding box. -/
def squareNodeAtOrigin (W : ℚ) : CanvasNode := ⟨0, 0, 0, W, W, none, 0⟩

/-- Scenario computation for C6, with the screenshotting flag left
free: on a single square node of side `W` at the origin and a square
`W2`-sided render surface, the first framing pass sets the linear zoom
to `W2 / (W * 1.1)` when screenshotting, and clamps the same ratio to at
most 1 otherwise; the pan is the node center in both cases. -/
theorem firstFramingPass_squareNode_aux (env : Env) (c : Canvas) (W W2 : ℚ)
    (hW : 0 < W) (hW2 : 0 < W2)
    (hnodes : c.nodes = [squareNodeAtOrigin W]) (hedges : c.edges = [])
    (hrect : c.canvasRect = ⟨W2, W2⟩) (hac : env.acZoom = none) :
    (firstFramingPass env c).canvas.tZoomExp =
      (if c.screenshotting then .fin (W2 / (W * (11/10)))
       else .fin (min (W2 / (W * (11/10))) 1)) ∧
    (firstFramingPass env c).canvas.tx = .fin (W / 2) ∧
    (firstFramingPass env c).canvas.ty = .fin (W / 2) := by
  have hW' : W ≠ 0 := ne_of_gt hW
  have hW2' : W2 ≠ 0 := ne_of_gt hW2
  have htarget : calculateBoundingBox c.nodes c.edges = ⟨.fin 0, .fin 0, .fin W, .fin W⟩ := by
    rw [hnodes, hedges]
    simp [calculateBoundingBox, squareNodeAtOrigin, nodeFallbackBBox, combineBBoxes,
      combineStep, jmin_pinf_left, jmax_ninf_left]
  have henl : scaleBBox ⟨.fin 0, .fin 0, .fin W, .fin W⟩ (.fin (11/10)) =
      ⟨.fin (-(W / 20)), .fin (-(W / 20)), .fin (W + W / 20), .fin (W + W / 20)⟩ := by
    simp only [scaleBBox, jsub, jadd, jneg, jmul, jdiv]
    norm_num
    ring_nf
  have hwidth : jsub (.fin (W + W / 20)) (.fin (-(W / 20))) = .fin (W * (11/10)) := by
    simp only [jsub, jadd, jneg, neg_neg]
    congr 1
    ring
  have he' : W * (11/10) ≠ 0 := by positivity
  have hAspectA : jdiv (.fin W2) (.fin W2) = .fin 1 := by
    simp [jdiv, hW2', div_self]
  have hAspectT : jdiv (.fin (W * (11/10))) (.fin (W * (11/10))) = .fin 1 := by
    simp [jdiv, he', div_self]
  have hadj : adjustBBoxForAspect
      ⟨.fin (-(W / 20)), .fin (-(W / 20)), .fin (W + W / 20), .fin (W + W / 20)⟩
      (.fin 1) (.fin 1) =
      ⟨.fin (-(W / 20)), .fin (-(W / 20)), .fin (W + W / 20), .fin (W + W / 20)⟩ := by
    unfold adjustBBoxForAspect
    rw [if_neg (by simp [jlt])]
    simp only [hwidth]
    have : jdiv (.fin (W * (11/10))) (.fin 1) = .fin (W * (11/10)) := by
      simp [jdiv]
    rw [this]
    have : jadd (.fin (-(W / 20))) (.fin (W * (11/10))) = .fin (W + W / 20) := by
      simp only [jadd]
      congr 1
      ring
    rw [this]
  have hzoom := zoomToRealBbox_fallback env c (-(W / 20)) (-(W / 20))
    (W + W / 20) (W + W / 20) hac
    (by rw [hrect]; exact hW2') (by rw [hrect]; exact hW2')
    (by nlinarith) (by nlinarith)
  have hval : W + W / 20 - -(W / 20) = W * (11/10) := by ring
  have hcenter : (-(W / 20) + (W + W / 20)) / 2 = W / 2 := by ring
  rw [hval, hcenter, hrect] at hzoom
  simp only [firstFramingPass, htarget, henl, hwidth, hrect, hAspectA, hAspectT, hadj,
    hzoom, Canvas.setViewport]
  by_cases hscr : c.screenshotting
  · rw [if_pos hscr, if_pos hscr]
    simp [jmin_fin_eq]
  · rw [if_neg hscr, if_neg hscr]
    simp [jmin_fin_eq, jmin_fin_fin]

/-- C6: on a single square node of width = height = W at the origin and
a square render surface of side W2, the first framing pass in
export/screenshotting mode (fallback zoom) sets the linear zoom
(2 raised to the stored tZoom) to `W2 / (W * 1.1)` with no clamping to
at most 1, and centers the pan on the node at `(W/2, W/2)`; the clamp to
at most 1 is applied exactly when the screenshotting flag is false. -/
theorem firstFramingPass_squareNode (env : Env) (c : Canvas) (W W2 : ℚ)
    (hW : 0 < W) (hW2 : 0 < W2)
    (hnodes : c.nodes = [squareNodeAtOrigin W]) (hedges : c.edges = [])
    (hrect : c.canvasRect = ⟨W2, W2⟩) (hscr : c.screenshotting = true)
    (hac : env.acZoom = none) :
    ((firstFramingPass env c).canvas.tZoomExp = .fin (W2 / (W * (11/10))) ∧
     (firstFramingPass env c).canvas.tx = .fin (W / 2) ∧
     (firstFramingPass env c).canvas.ty = .fin (W / 2)) ∧
    (firstFramingPass env { c with screenshotting := false }).canvas.tZoomExp =
      .fin (min (W2 / (W * (11/10))) 1) := by
  obtain ⟨h1, h2, h3⟩ :=
    firstFramingPass_squareNode_aux env c W W2 hW hW2 hnodes hedges hrect hac
  obtain ⟨h1', _, _⟩ :=
    firstFramingPass_squareNode_aux env { c with screenshotting := false } W W2 hW hW2
      (by simpa using hnodes) (by simpa using hedges) (by simpa using hrect) hac
  rw [hscr] at h1
  simp at h1'
  exact ⟨⟨by simpa using h1, h2, h3⟩, h1'⟩

/-- The concrete canvas of the C6 witness: one 100-sided square node,
200-sided square surface, export mode. -/
def squareCanvas : Canvas :=
  { emptyCanvas with
    nodes := [squareNodeAtOrigin 100], screenshotting := true }

/-- Witness for C6: with W = 100 and W2 = 200 the unclamped linear zoom
is 20/11 (greater than 1) and the pan is (50, 50). -/
theorem firstFramingPass_squareNode_witness :
    ((0:ℚ) < 100 ∧ (0:ℚ) < 200 ∧ squareCanvas.screenshotting = true) ∧
    ((firstFramingPass envReady squareCanvas).canvas.tZoomExp =
        .fin ((200:ℚ) / (100 * (11/10))) ∧
     (firstFramingPass envReady squareCanvas).canvas.tx = .fin ((100:ℚ) / 2) ∧
     (firstFramingPass envReady squareCanvas).canvas.ty = .fin ((100:ℚ) / 2)) :=
  ⟨⟨by norm_num, by norm_num, rfl⟩,
   (firstFramingPass_squareNode envReady squareCanvas 100 200 (by norm_num) (by norm_num)
     rfl rfl rfl rfl rfl).1⟩

/-! ### C4: the readiness waiter and the loading gate -/

/-- The wait loop always returns the unready filter of some tick. -/
theorem waitLoop_unreadyAt (env : Env) (nodes : List CanvasNode) (maxWait : ℕ) :
    ∀ fuel t, ∃ t', waitLoop env nodes maxWait fuel t (unreadyAt env t nodes) =
      unreadyAt env t' nodes := by
  intro fuel
  induction fuel with
  | zero =>
    intro t
    exact ⟨t, rfl⟩
  | succ n ih =>
    intro t
    simp only [waitLoop]
    split
    · exact ⟨t, rfl⟩
    · exact ih (t + 1)

/-- When the host never readies the nodes, the loop returns them all. -/
theorem waitLoop_const (env : Env) (nodes : List CanvasNode) (maxWait : ℕ)
    (hconst : ∀ t, unreadyAt env t nodes = nodes) :
    ∀ fuel t, waitLoop env nodes maxWait fuel t nodes = nodes := by
  intro fuel
  induction fuel with
  | zero =>
    intro t
    rfl
  | succ n ih =>
    intro t
    simp only [waitLoop]
    split
    · rfl
    · rw [hconst (t + 1)]
      exact ih (t + 1)

/-- When the host never readies the nodes, the waiter returns them all. -/
theorem waitForNodesReady_const (env : Env) (nodes : List CanvasNode) (maxWait : ℕ)
    (hconst : ∀ t, unreadyAt env t nodes = nodes) :
    waitForNodesReady env nodes maxWait = nodes := by
  unfold waitForNodesReady
  rw [hconst 0]
  exact waitLoop_const env nodes maxWait hconst _ _

/-- A non-empty unready list makes the body throw before `toPng`. -/
theorem captureBody_unready (env : Env) (c : Canvas)
    (h : waitForNodesReady env c.nodes MAX_LOADING_TIME ≠ []) :
    (captureBody env c).1 =
      .error ("Export cancelled: Nodes did not finish loading in time") ∧
    (captureBody env c).2.2 = 0 := by
  have hne : (waitForNodesReady env c.nodes MAX_LOADING_TIME).isEmpty = false := by
    cases hcase : waitForNodesReady env c.nodes MAX_LOADING_TIME with
    | nil => exact absurd hcase h
    | cons a as => rfl
  simp [captureBody, hne]

/-- C4: the render-readiness waiter never throws and always returns the
list of nodes whose initialized or content-mounted flag is still false
at the tick it stops polling (empty when all nodes are ready); and
whenever that list is non-empty, the export fails with the
"did not finish loading" error and the external rasterizer is never
invoked. -/
theorem waitForNodesReady_spec (env : Env) (c : Canvas) (maxWait : ℕ) :
    (∃ t, waitForNodesReady env c.nodes maxWait = unreadyAt env t c.nodes) ∧
    (c.nodes ≠ [] →
      waitForNodesReady env c.nodes MAX_LOADING_TIME ≠ [] →
      (captureCanvasAsImage env c).result =
        .error ("Export cancelled: Nodes did not finish loading in time") ∧
      (captureCanvasAsImage env c).log.toPngCalls = 0) := by
  constructor
  · unfold waitForNodesReady
    exact waitLoop_unreadyAt env c.nodes maxWait (maxWait / 10 + 1) 0
  · intro hnodes hwait
    have hne : c.nodes.isEmpty = false := by
      cases hcn : c.nodes with
      | nil => exact absurd hcn hnodes
      | cons a as => rfl
    have hbody := captureBody_unready env
      { c with screenshotting := true,
               canvasElClasses := addClass c.canvasElClasses ("is-exporting"),
               selection := ([] : List ℕ) }
      (by simpa using hwait)
    simp only [captureCanvasAsImage, hne, Bool.false_eq_true, if_false]
    exact ⟨hbody.1, hbody.2⟩

/-- An environment in which no node ever reports its content mounted. -/
def envStuck : Env := { envReady with mountedAt := fun _ _ => some false }

/-- Witness for C4: a concrete export whose single node never mounts
fails with the loading error and never calls the rasterizer. -/
theorem waitForNodesReady_spec_witness :
    (oneNodeCanvas.nodes ≠ [] ∧
     waitForNodesReady envStuck oneNodeCanvas.nodes MAX_LOADING_TIME ≠ []) ∧
    ((captureCanvasAsImage envStuck oneNodeCanvas).result =
        .error ("Export cancelled: Nodes did not finish loading in time") ∧
     (captureCanvasAsImage envStuck oneNodeCanvas).log.toPngCalls = 0) := by
  have hconst : ∀ t, unreadyAt envStuck t oneNodeCanvas.nodes = oneNodeCanvas.nodes := by
    intro t
    simp [unreadyAt, envStuck, envReady, oneNodeCanvas, emptyCanvas]
  have hwait : waitForNodesReady envStuck oneNodeCanvas.nodes MAX_LOADING_TIME =
      oneNodeCanvas.nodes :=
    waitForNodesReady_const _ _ _ hconst
  have hne : oneNodeCanvas.nodes ≠ [] := by simp [oneNodeCanvas, emptyCanvas]
  refine ⟨⟨hne, by rw [hwait]; exact hne⟩, ?_⟩
  exact (waitForNodesReady_spec envStuck oneNodeCanvas MAX_LOADING_TIME).2 hne
    (by rw [hwait]; exact hne)
